import Mathlib

/-!
Verification of the privateGPT repository (src/ingest.py and
src/privateGPT.py) against its natural-language specification.

The two Python scripts are shallowly embedded below.  Pure string
manipulation is translated to functions on String / List Char; the
third-party collaborators that the scripts merely configure (document
loaders, the recursive text splitter, the Chroma vector store, the
language-model backends) are modelled as explicit parameters or as small
definitions whose doc comments say exactly which described interface they
model.  Fallible code returns Except.
-/

namespace PGPT

/-- A langchain Document: its text and the source path recorded in its
metadata. -/
structure Document where
  page_content : String
  source : String
deriving Repr, DecidableEq

/-- The loader class chosen for an extension together with its keyword
arguments (src/ingest.py lines 31-47 stores pairs of a loader class and an
argument dict). -/
structure LoaderSpec where
  loader_class : String
  loader_args : List (String × String)
deriving Repr, DecidableEq

/-- LOADER_MAPPING from src/ingest.py lines 31-47: the extension-to-loader
dictionary.  The ".docx" entry using Docx2txtLoader is commented out in the
source, leaving 13 live keys. -/
def LOADER_MAPPING : List (String × LoaderSpec) := [
  (".csv", ⟨"CSVLoader", []⟩),
  (".doc", ⟨"UnstructuredWordDocumentLoader", []⟩),
  (".docx", ⟨"UnstructuredWordDocumentLoader", []⟩),
  (".enex", ⟨"EverNoteLoader", []⟩),
  (".eml", ⟨"UnstructuredEmailLoader", []⟩),
  (".epub", ⟨"UnstructuredEPubLoader", []⟩),
  (".html", ⟨"UnstructuredHTMLLoader", []⟩),
  (".md", ⟨"UnstructuredMarkdownLoader", []⟩),
  (".odt", ⟨"UnstructuredODTLoader", []⟩),
  (".pdf", ⟨"PDFMinerLoader", []⟩),
  (".ppt", ⟨"UnstructuredPowerPointLoader", []⟩),
  (".pptx", ⟨"UnstructuredPowerPointLoader", []⟩),
  (".txt", ⟨"TextLoader", [("encoding", "utf8")]⟩)]

/-- The keys of LOADER_MAPPING. -/
def supported_extensions : List String := LOADER_MAPPING.map Prod.fst

/-- The extension computed at src/ingest.py line 54: a dot followed by the
part of the path after its last dot (after the whole path when it has no
dot), exactly the Python expression using rsplit with maxsplit one. -/
def fileExt (file_path : String) : String :=
  String.mk ('.' :: (file_path.toList.reverse.takeWhile (fun c => c ≠ '.')).reverse)

/-- Indexing the loader output with subscript zero (src/ingest.py line 58):
the first document is returned, an empty output raises IndexError. -/
def loadResult : List Document → Except String Document
  | d :: _ => Except.ok d
  | [] => Except.error "IndexError: list index out of range"

/-- load_single_document from src/ingest.py lines 52-60.  The third-party
loaders are a parameter loadFn taking the chosen loader specification and
the file path. -/
def load_single_document (loadFn : LoaderSpec → String → List Document)
    (file_path : String) : Except String Document :=
  match LOADER_MAPPING.lookup (fileExt file_path) with
  | some spec => loadResult (loadFn spec file_path)
  | none => Except.error ("Unsupported file extension '" ++ fileExt file_path ++ "'")

/-- A concrete loader used to instantiate hypotheses: it yields one document
whose text is fixed and whose source is the file path. -/
def demoLoad : LoaderSpec → String → List Document :=
  fun _ fp => [⟨"content", fp⟩]

/-- A concrete loader yielding two documents per file, as CSVLoader does for
a two-row file. -/
def demoLoadMulti : LoaderSpec → String → List Document :=
  fun _ fp => [⟨"page one", fp⟩, ⟨"page two", fp⟩]

/-- The loader specification stored under the ".txt" key. -/
def txtSpec : LoaderSpec := ⟨"TextLoader", [("encoding", "utf8")]⟩

lemma lookup_eq_of_mem {α : Type} [DecidableEq α] {β : Type} (l : List (α × β))
    (hnd : (l.map Prod.fst).Nodup) (k : α) (v : β) (hm : (k, v) ∈ l) :
    l.lookup k = some v := by
  induction l with
  | nil => cases hm
  | cons p rest ih =>
    obtain ⟨k', v'⟩ := p
    simp only [List.map_cons, List.nodup_cons, List.mem_map] at hnd
    rcases List.mem_cons.mp hm with h | h
    · rw [Prod.mk.injEq] at h
      obtain ⟨hk, hv⟩ := h
      subst hk; subst hv
      simp [List.lookup]
    · have hkne : ¬ (k = k') := fun he => hnd.1 ⟨(k, v), h, he⟩
      have hbeq : (k == k') = false := by simpa using hkne
      simpa [List.lookup, hbeq] using ih hnd.2 h

lemma lookup_eq_none_of_not_mem {α : Type} [DecidableEq α] {β : Type}
    (l : List (α × β)) (k : α) (hk : k ∉ l.map Prod.fst) : l.lookup k = none := by
  induction l with
  | nil => rfl
  | cons p rest ih =>
    obtain ⟨k', v'⟩ := p
    simp only [List.map_cons, List.mem_cons] at hk
    push_neg at hk
    have hbeq : (k == k') = false := by simpa using hk.1
    simpa [List.lookup, hbeq] using ih hk.2

lemma loader_keys_nodup : (LOADER_MAPPING.map Prod.fst).Nodup := by decide

lemma lookup_mapping_of_mem (k : String) (v : LoaderSpec)
    (hm : (k, v) ∈ LOADER_MAPPING) : LOADER_MAPPING.lookup k = some v :=
  lookup_eq_of_mem LOADER_MAPPING loader_keys_nodup k v hm

lemma lookup_mapping_of_not_mem (k : String)
    (hk : k ∉ supported_extensions) : LOADER_MAPPING.lookup k = none :=
  lookup_eq_none_of_not_mem LOADER_MAPPING k hk

/-- C1: load_single_document dispatches a file whose computed extension is a
key of LOADER_MAPPING to the loader stored under that key, and fails with a
message naming the extension otherwise; LOADER_MAPPING has 13 keys, not the
14 the claim states. -/
theorem load_single_document_dispatch :
    supported_extensions.length = 13 ∧
    ∀ (loadFn : LoaderSpec → String → List Document) (fp : String),
      (∀ spec : LoaderSpec, (fileExt fp, spec) ∈ LOADER_MAPPING →
        load_single_document loadFn fp = loadResult (loadFn spec fp)) ∧
      (fileExt fp ∉ supported_extensions →
        ∃ pre post, load_single_document loadFn fp =
          Except.error (pre ++ fileExt fp ++ post)) := by
  refine ⟨by decide, fun loadFn fp => ⟨fun spec hmem => ?_, fun hnot => ?_⟩⟩
  · unfold load_single_document
    rw [lookup_mapping_of_mem _ _ hmem]
  · refine ⟨"Unsupported file extension '", "'", ?_⟩
    unfold load_single_document
    rw [lookup_mapping_of_not_mem _ hnot]

/-- C1 counterexample: LOADER_MAPPING does not have 14 keys; it has 13. -/
theorem loader_mapping_not_fourteen :
    supported_extensions.length = 13 ∧ supported_extensions.length ≠ 14 := by
  decide

/-- C1 witness: the dispatch theorem applied to the concrete paths
notes.txt (supported, handled by the TextLoader entry) and img.xyz
(unsupported, rejected with a message naming .xyz). -/
theorem load_single_document_dispatch_witness :
    ((".txt", txtSpec) ∈ LOADER_MAPPING ∧
      load_single_document demoLoad "notes.txt" = loadResult (demoLoad txtSpec "notes.txt")) ∧
    (fileExt "img.xyz" ∉ supported_extensions ∧
      ∃ pre post, load_single_document demoLoad "img.xyz" =
        Except.error (pre ++ fileExt "img.xyz" ++ post)) :=
  ⟨⟨by decide, ((load_single_document_dispatch.2 demoLoad "notes.txt").1 txtSpec (by decide))⟩,
   ⟨by decide, ((load_single_document_dispatch.2 demoLoad "img.xyz").2 (by decide))⟩⟩

/-- C9: for a supported file, load_single_document returns exactly the first
document the dispatched loader yields; the tail of the loader output does
not appear in the result, whatever it is. -/
theorem load_single_document_first_only :
    ∀ (loadFn : LoaderSpec → String → List Document) (fp : String)
      (spec : LoaderSpec) (d : Document) (rest : List Document),
      (fileExt fp, spec) ∈ LOADER_MAPPING →
      loadFn spec fp = d :: rest →
      load_single_document loadFn fp = Except.ok d := by
  intro loadFn fp spec d rest hmem hload
  unfold load_single_document
  rw [lookup_mapping_of_mem _ _ hmem]
  show loadResult (loadFn spec fp) = Except.ok d
  rw [hload]
  rfl

/-- C9 witness: a loader yielding two documents for multi.csv; only the
first one is returned. -/
theorem load_single_document_first_only_witness :
    (fileExt "multi.csv", (⟨"CSVLoader", []⟩ : LoaderSpec)) ∈ LOADER_MAPPING ∧
    demoLoadMulti ⟨"CSVLoader", []⟩ "multi.csv" =
      ⟨"page one", "multi.csv"⟩ :: [⟨"page two", "multi.csv"⟩] ∧
    load_single_document demoLoadMulti "multi.csv" =
      Except.ok ⟨"page one", "multi.csv"⟩ :=
  ⟨by decide, rfl,
    load_single_document_first_only demoLoadMulti "multi.csv" ⟨"CSVLoader", []⟩
      ⟨"page one", "multi.csv"⟩ [⟨"page two", "multi.csv"⟩] (by decide) rfl⟩

/-! The text splitter.  The repository calls langchain's
RecursiveCharacterTextSplitter with chunk_size 1000 and chunk_overlap 100
(src/ingest.py lines 90-96). -/

/-- The chunk size fixed at src/ingest.py line 90. -/
def chunk_size : Nat := 1000

/-- The chunk overlap fixed at src/ingest.py line 91. -/
def chunk_overlap : Nat := 100

/-- Modelled from the spec: the standard recursive splitter, at character
granularity.  It emits windows of at most chunk_size characters whose start
advances by step = chunk_size - chunk_overlap, so consecutive windows share
chunk_overlap characters.  The Nat argument is structural fuel; a fuel of
the text length suffices whenever the step is positive. -/
def split_chars_aux (step cs : Nat) : Nat → List Char → List (List Char)
  | 0, s => [s]
  | fuel + 1, s =>
    if s.length ≤ cs then [s]
    else s.take cs :: split_chars_aux step cs fuel (s.drop step)

/-- The splitter applied to one text, with fuel already supplied. -/
def split_text (cs co : Nat) (s : List Char) : List (List Char) :=
  split_chars_aux (cs - co) cs s.length s

/-- The split_documents call at src/ingest.py line 96: every loaded document
is cut into chunks, each chunk keeping its document's source metadata. -/
def split_documents (docs : List Document) : List Document :=
  docs.flatMap (fun d =>
    (split_text chunk_size chunk_overlap d.page_content.toList).map
      (fun c => { page_content := String.mk c, source := d.source }))

lemma split_chars_aux_length_le (step cs : Nat) (hstep : 0 < step) :
    ∀ (fuel : Nat) (s : List Char), s.length ≤ fuel →
      ∀ c ∈ split_chars_aux step cs fuel s, c.length ≤ cs := by
  intro fuel
  induction fuel with
  | zero =>
    intro s hs c hc
    have : s = [] := List.eq_nil_of_length_eq_zero (Nat.le_zero.mp hs)
    subst this
    simp only [split_chars_aux, List.mem_singleton] at hc
    subst hc
    simp
  | succ n ih =>
    intro s hs c hc
    by_cases h : s.length ≤ cs
    · simp only [split_chars_aux, if_pos h, List.mem_singleton] at hc
      subst hc; exact h
    · simp only [split_chars_aux, if_neg h, List.mem_cons] at hc
      rcases hc with hc | hc
      · subst hc
        exact List.length_take_le cs s
      · exact ih (s.drop step) (by simp only [List.length_drop]; omega) c hc

lemma split_chars_aux_head_take (step cs co : Nat) (hco : co ≤ cs)
    (fuel : Nat) (t : List Char) :
    ∃ b, (split_chars_aux step cs fuel t).head? = some b ∧ b.take co = t.take co := by
  cases fuel with
  | zero => exact ⟨t, rfl, rfl⟩
  | succ n =>
    by_cases h : t.length ≤ cs
    · exact ⟨t, by simp [split_chars_aux, if_pos h], rfl⟩
    · refine ⟨t.take cs, by simp [split_chars_aux, if_neg h], ?_⟩
      rw [List.take_take, Nat.min_eq_left hco]

lemma split_chars_aux_chain (cs co : Nat) (hco : co < cs) :
    ∀ (fuel : Nat) (s : List Char), s.length ≤ fuel →
      List.Chain' (fun a b => a.length = cs ∧ a.drop (cs - co) = b.take co)
        (split_chars_aux (cs - co) cs fuel s) := by
  intro fuel
  induction fuel with
  | zero => intro s _; simp [split_chars_aux]
  | succ n ih =>
    intro s hs
    by_cases h : s.length ≤ cs
    · simp [split_chars_aux, if_pos h]
    · rw [split_chars_aux, if_neg h]
      rw [List.chain'_cons']
      constructor
      · intro b hb
        obtain ⟨b0, hb0, htake⟩ :=
          split_chars_aux_head_take (cs - co) cs co (Nat.le_of_lt hco) n (s.drop (cs - co))
        rw [hb0] at hb
        cases hb
        constructor
        · rw [List.length_take]
          omega
        · rw [List.drop_take, htake]
          have : cs - (cs - co) = co := by omega
          rw [this]
      · exact ih (s.drop (cs - co)) (by simp only [List.length_drop]; omega)

/-- C2 (amended): every chunk the splitter produces has at most chunk_size
(1000) characters -- both at the splitter and through split_documents -- and
whenever a chunk has a successor it is exactly 1000 characters long and its
last 100 characters are the first 100 characters of the next chunk. -/
theorem split_text_chunk_spec :
    ∀ s : List Char,
      (∀ c ∈ split_text chunk_size chunk_overlap s, c.length ≤ chunk_size) ∧
      List.Chain'
        (fun a b => a.length = chunk_size ∧
          a.drop (chunk_size - chunk_overlap) = b.take chunk_overlap)
        (split_text chunk_size chunk_overlap s) ∧
      ∀ (docs : List Document) (t : Document), t ∈ split_documents docs →
        t.page_content.length ≤ chunk_size := by
  intro s
  refine ⟨split_chars_aux_length_le _ _ (by decide) _ s (Nat.le_refl _),
    split_chars_aux_chain chunk_size chunk_overlap (by decide) _ s (Nat.le_refl _),
    ?_⟩
  intro docs t ht
  simp only [split_documents, List.mem_flatMap, List.mem_map] at ht
  obtain ⟨d, _, c, hc, hct⟩ := ht
  subst hct
  exact split_chars_aux_length_le _ _ (by decide) _ _ (Nat.le_refl _) c hc

/-- C2 counterexample: a five-character document is split into a single
five-character chunk, so not every chunk has exactly 1000 characters. -/
theorem split_text_short_chunk :
    split_text chunk_size chunk_overlap "hello".toList = ["hello".toList] ∧
    "hello".toList.length ≠ chunk_size := by
  decide

/-- C2 witness: the chunk bound applied to the concrete two-character text
hi, which the splitter keeps whole. -/
theorem split_text_chunk_spec_witness :
    "hi".toList ∈ split_text chunk_size chunk_overlap "hi".toList ∧
    "hi".toList.length ≤ chunk_size :=
  ⟨by decide, (split_text_chunk_spec "hi".toList).1 "hi".toList (by decide)⟩

/-! Directory walking.  load_documents (src/ingest.py lines 63-79) collects,
for each key of LOADER_MAPPING, the files matching the recursive glob
pattern source_dir/**/*ext, and maps load_single_document over the union.
A file system is modelled as a list of relative paths, each path a nonempty
list of components whose last entry is the file name. -/

/-- The final component of a relative path (the file name). -/
def lastName (path : List String) : String := path.getLastD ""

/-- Whether a component name begins with a dot.  The Python glob wildcards
match no name that begins with a dot. -/
def hidden (name : String) : Bool := name.toList.head? = some '.'

/-- Whether name ends with ext, character for character: the semantics both
of the glob pattern *ext and of the str.endswith test. -/
def ends_with (name ext : String) : Bool := decide (ext.toList <:+ name.toList)

/-- Modelled from the Python stdlib semantics of the call
glob.glob(os.path.join(source_dir, "**/*" + ext), recursive=True) at
src/ingest.py lines 66-69: a relative path is matched exactly when it is
nonempty, none of its components begins with a dot (neither * nor the
recursive ** wildcard matches hidden names), and its file name ends with
ext. -/
def glob_match (ext : String) (path : List String) : Bool :=
  !path.isEmpty && path.all (fun c => !hidden c) && ends_with (lastName path) ext

/-- Whether some supported extension matches the path. -/
def glob_any (path : List String) : Bool :=
  supported_extensions.any (fun e => glob_match e path)

/-- The all_files accumulation of src/ingest.py lines 65-69: one glob call
per extension, results appended. -/
def all_files (files : List (List String)) : List (List String) :=
  supported_extensions.flatMap (fun ext => files.filter (glob_match ext))

/-- Joining path components with the separator, as os.path.join and the
glob results do on a POSIX system. -/
def joinPath : List String → String
  | [] => ""
  | [x] => x
  | x :: rest => x ++ "/" ++ joinPath rest

/-- load_documents from src/ingest.py lines 63-79: every matched file is
passed to load_single_document (through the worker pool, whose only effect
is an unspecified result order, here the glob order). -/
def load_documents (loadFn : LoaderSpec → String → List Document)
    (source_dir : String) (files : List (List String)) :
    List (Except String Document) :=
  (all_files files).map (fun p => load_single_document loadFn (joinPath (source_dir :: p)))

lemma suffix_total {l1 l2 s : List Char} (h1 : l1 <:+ s) (h2 : l2 <:+ s) :
    l1 <:+ l2 ∨ l2 <:+ l1 := by
  have p1 : l1.reverse <+: s.reverse := List.reverse_prefix.mpr h1
  have p2 : l2.reverse <+: s.reverse := List.reverse_prefix.mpr h2
  rcases List.prefix_or_prefix_of_prefix p1 p2 with h | h
  · exact Or.inl (List.reverse_prefix.mp h)
  · exact Or.inr (List.reverse_prefix.mp h)

lemma ext_pair_not_suffix :
    ∀ e1 ∈ supported_extensions, ∀ e2 ∈ supported_extensions,
      e1 ≠ e2 → ¬(e1.toList <:+ e2.toList) ∧ ¬(e2.toList <:+ e1.toList) := by
  decide

lemma ends_with_unique (s e1 e2 : String)
    (h1 : e1 ∈ supported_extensions) (h2 : e2 ∈ supported_extensions)
    (he1 : ends_with s e1 = true) (he2 : ends_with s e2 = true) : e1 = e2 := by
  by_contra hne
  have hns := ext_pair_not_suffix e1 h1 e2 h2 hne
  rw [ends_with, decide_eq_true_eq] at he1 he2
  rcases suffix_total he1 he2 with h | h
  · exact hns.1 h
  · exact hns.2 h

lemma countP_le_one_of_unique {α : Type} (l : List α) (q : α → Bool)
    (hnd : l.Nodup)
    (hu : ∀ a ∈ l, ∀ b ∈ l, q a = true → q b = true → a = b) :
    l.countP q ≤ 1 := by
  induction l with
  | nil => simp
  | cons a rest ih =>
    rw [List.countP_cons]
    rcases List.nodup_cons.mp hnd with ⟨hna, hndr⟩
    by_cases hqa : q a = true
    · have hrest : rest.countP q = 0 := by
        rw [List.countP_eq_zero]
        intro b hb hqb
        exact hna ((hu a (List.mem_cons_self a rest) b (List.mem_cons_of_mem a hb) hqa hqb) ▸ hb)
      simp [hrest, hqa]
    · have := ih hndr
        (fun x hx y hy => hu x (List.mem_cons_of_mem a hx) y (List.mem_cons_of_mem a hy))
      simp [hqa]
      omega

lemma glob_countP_le_one (p : List String) :
    supported_extensions.countP (fun e => glob_match e p) ≤ 1 := by
  refine countP_le_one_of_unique _ _ (by decide) ?_
  intro a ha b hb hqa hqb
  rw [glob_match, Bool.and_eq_true, Bool.and_eq_true] at hqa hqb
  exact ends_with_unique (lastName p) a b ha hb hqa.2 hqb.2

lemma flatMap_filter_cons_length {α β : Type} (exts : List α) (m : α → β → Bool)
    (f : β) (fs : List β) :
    (exts.flatMap (fun e => (f :: fs).filter (m e))).length =
      exts.countP (fun e => m e f) +
        (exts.flatMap (fun e => fs.filter (m e))).length := by
  induction exts with
  | nil => simp
  | cons e rest ih =>
    rw [List.flatMap_cons, List.flatMap_cons, List.length_append, List.length_append,
      List.countP_cons, List.filter_cons, ih]
    by_cases h : m e f = true
    · simp [h]; omega
    · simp [h]; omega

lemma flatMap_const_nil {α β : Type} (l : List α) :
    (l.flatMap (fun _ => ([] : List β))) = [] := by
  induction l with
  | nil => rfl
  | cons a r ih => rw [List.flatMap_cons, ih]; rfl

lemma countP_eq_ite_any {α : Type} (l : List α) (p : α → Bool)
    (h : l.countP p ≤ 1) : l.countP p = if l.any p then 1 else 0 := by
  by_cases ha : l.any p = true
  · rw [if_pos ha]
    have : 0 < l.countP p :=
      List.countP_pos_iff.mpr (List.any_eq_true.mp ha)
    omega
  · rw [if_neg (by simpa using ha), List.countP_eq_zero]
    intro a hmem hpa
    exact ha (List.any_eq_true.mpr ⟨a, hmem, hpa⟩)

lemma flatMap_filter_length {α β : Type} (exts : List α) (m : α → β → Bool)
    (files : List β) (h : ∀ f, exts.countP (fun e => m e f) ≤ 1) :
    (exts.flatMap (fun e => files.filter (m e))).length =
      files.countP (fun f => exts.any (fun e => m e f)) := by
  induction files with
  | nil => simp [List.filter_nil, flatMap_const_nil]
  | cons f fs ih =>
    rw [flatMap_filter_cons_length, ih, List.countP_cons,
      countP_eq_ite_any _ _ (h f)]
    omega

lemma takeWhile_append_of_all {p : Char → Bool} {xs : List Char} (ys : List Char)
    (h : ∀ x ∈ xs, p x = true) :
    List.takeWhile p (xs ++ ys) = xs ++ List.takeWhile p ys := by
  induction xs with
  | nil => simp
  | cons x rest ih =>
    have hx := h x (List.mem_cons_self x rest)
    simp only [List.cons_append, List.takeWhile_cons, hx, if_true]
    rw [ih (fun a ha => h a (List.mem_cons_of_mem x ha))]

lemma fileExt_append_dotword (l w : List Char) (hw : '.' ∉ w) :
    fileExt (String.mk (l ++ '.' :: w)) = String.mk ('.' :: w) := by
  rw [fileExt]
  have htl : (String.mk (l ++ '.' :: w)).toList = l ++ '.' :: w := rfl
  rw [htl, List.reverse_append, List.reverse_cons]
  rw [List.append_assoc]
  rw [takeWhile_append_of_all _ (fun x hx => by
    simp only [List.mem_reverse] at hx
    simp only [decide_eq_true_eq]
    intro he
    exact hw (he ▸ hx))]
  have : List.takeWhile (fun c => decide (c ≠ '.')) (['.'] ++ l.reverse) = [] := by
    simp [List.takeWhile_cons]
  rw [this, List.append_nil, List.reverse_reverse]

lemma ext_shape :
    ∀ e ∈ supported_extensions,
      e.toList.head? = some '.' ∧ '.' ∉ e.toList.tail := by
  decide

lemma lastName_cons_cons (x y : String) (rest : List String) :
    lastName (x :: y :: rest) = lastName (y :: rest) := by
  rw [lastName, lastName, List.getLastD_cons, List.getLastD_eq_getLast?,
    List.getLastD_eq_getLast?]
  cases h : (y :: rest).getLast? with
  | none => simp [List.getLast?_eq_none_iff] at h
  | some v => rfl

lemma joinPath_toList (l : List String) (hne : l ≠ []) :
    ∃ pre, (joinPath l).toList = pre ++ (lastName l).toList := by
  induction l with
  | nil => exact absurd rfl hne
  | cons x rest ih =>
    cases rest with
    | nil => exact ⟨[], rfl⟩
    | cons y rest2 =>
      obtain ⟨pre, hpre⟩ := ih (by simp)
      refine ⟨x.toList ++ "/".toList ++ pre, ?_⟩
      rw [lastName_cons_cons]
      have hstep : (joinPath (x :: y :: rest2)).toList
          = x.toList ++ ("/".toList ++ (joinPath (y :: rest2)).toList) := by
        show (x ++ "/" ++ joinPath (y :: rest2)).toList = _
        simp
      rw [hstep, hpre]
      simp [List.append_assoc]

lemma fileExt_of_matched (ext : String) (hext : ext ∈ supported_extensions)
    (source_dir : String) (p : List String) (hm : glob_match ext p = true) :
    fileExt (joinPath (source_dir :: p)) = ext := by
  rw [glob_match, Bool.and_eq_true, Bool.and_eq_true] at hm
  obtain ⟨⟨hne, _⟩, hend⟩ := hm
  rw [ends_with, decide_eq_true_eq] at hend
  obtain ⟨pre1, hpre1⟩ := hend
  obtain ⟨hhead, htail⟩ := ext_shape ext hext
  obtain ⟨c, w, hcw⟩ : ∃ c w, ext.toList = c :: w := by
    cases h : ext.toList with
    | nil => rw [h] at hhead; cases hhead
    | cons c w => exact ⟨c, w, rfl⟩
  have hc : c = '.' := by
    rw [hcw] at hhead
    simpa using hhead
  subst hc
  rw [hcw] at htail
  simp only [List.tail_cons] at htail
  have hp_ne : p ≠ [] := by
    intro h
    rw [h] at hne
    simp at hne
  obtain ⟨pre2, hpre2⟩ := joinPath_toList (source_dir :: p) (by simp)
  have hlast : lastName (source_dir :: p) = lastName p := by
    cases p with
    | nil => exact absurd rfl hp_ne
    | cons z zs => exact lastName_cons_cons source_dir z zs
  rw [hlast, ← hpre1, hcw] at hpre2
  have hjoin : joinPath (source_dir :: p) = String.mk ((pre2 ++ pre1) ++ '.' :: w) := by
    apply String.ext
    show (joinPath (source_dir :: p)).toList = _
    rw [hpre2, List.append_assoc]
  rw [hjoin, fileExt_append_dotword _ _ htail]
  apply String.ext
  show ('.' :: w) = ext.toList
  rw [hcw]

/-- C3 (amended): load_documents yields exactly one result per file, none of
whose path components begins with a dot, whose name ends with a supported
extension (hidden files, and files inside hidden directories, are skipped by
the glob), and when every loader yields at least one document each of those
results is a Document. -/
theorem load_documents_characterization :
    ∀ (loadFn : LoaderSpec → String → List Document) (source_dir : String)
      (files : List (List String)),
      (load_documents loadFn source_dir files).length = files.countP glob_any ∧
      ((∀ spec fp, loadFn spec fp ≠ []) →
        ∀ r ∈ load_documents loadFn source_dir files, ∃ d, r = Except.ok d) := by
  intro loadFn source_dir files
  constructor
  · rw [load_documents, List.length_map, all_files]
    exact flatMap_filter_length supported_extensions glob_match files glob_countP_le_one
  · intro hnonempty r hr
    rw [load_documents, List.mem_map] at hr
    obtain ⟨p, hp, hrp⟩ := hr
    rw [all_files, List.mem_flatMap] at hp
    obtain ⟨ext, hext, hpf⟩ := hp
    rw [List.mem_filter] at hpf
    have hfe : fileExt (joinPath (source_dir :: p)) = ext :=
      fileExt_of_matched ext hext source_dir p hpf.2
    obtain ⟨pair, hpair, hfst⟩ := List.mem_map.mp hext
    have hmem : (ext, pair.2) ∈ LOADER_MAPPING := by
      have : pair = (ext, pair.2) := by
        rw [← hfst]
      exact this ▸ hpair
    rw [← hrp, load_single_document, hfe, lookup_mapping_of_mem _ _ hmem]
    rcases hld : loadFn pair.2 (joinPath (source_dir :: p)) with _ | ⟨d, rest⟩
    · exact absurd hld (hnonempty _ _)
    · refine ⟨d, ?_⟩
      show loadResult (loadFn pair.2 (joinPath (source_dir :: p))) = Except.ok d
      rw [hld]
      rfl

/-- C3 counterexample: a directory holding the single hidden file
.hidden.txt, whose name does end with the supported extension .txt, yields
no document at all. -/
theorem load_documents_skips_hidden :
    (load_documents demoLoad "source_documents" [[".hidden.txt"]]).length = 0 ∧
    ends_with ".hidden.txt" ".txt" = true ∧
    ".txt" ∈ supported_extensions := by
  decide

/-- C3 witness: the characterization applied to a concrete directory with a
nested supported file, an unsupported file and a hidden file, with the
demonstration loader, which yields a document for every file. -/
theorem load_documents_characterization_witness :
    (load_documents demoLoad "docs" [["sub", "a.txt"], ["b.bin"], [".h.txt"]]).length =
      ([["sub", "a.txt"], ["b.bin"], [".h.txt"]] : List (List String)).countP glob_any ∧
    (∀ spec fp, demoLoad spec fp ≠ []) ∧
    (∀ r ∈ load_documents demoLoad "docs" [["sub", "a.txt"], ["b.bin"], [".h.txt"]],
      ∃ d, r = Except.ok d) :=
  ⟨(load_documents_characterization demoLoad "docs" _).1,
   fun _ _ => by simp [demoLoad],
   (load_documents_characterization demoLoad "docs" _).2 (fun _ _ => by simp [demoLoad])⟩

/-! The vector store.  src/ingest.py lines 100-112 embed the chunks and
persist a Chroma index; src/privateGPT.py lines 153-158 reopen it and wrap
it in a retriever. -/

/-- A Chroma index: where it is rooted, the indexed (chunk, embedding)
pairs, and whether it has been written to local disk. -/
structure Chroma (E : Type) where
  persist_directory : String
  entries : List (Document × E)
  persisted : Bool
deriving Repr, DecidableEq

/-- Modelled from the spec: Chroma.from_documents (src/ingest.py lines
105-110) computes an embedding of every chunk with the configured embedding
model and adds every (chunk, embedding) pair to a fresh index rooted at the
persist directory; nothing is on disk yet. -/
def Chroma.from_documents {E : Type} (embed : String → E) (texts : List Document)
    (persist_directory : String) : Chroma E :=
  { persist_directory := persist_directory,
    entries := texts.map (fun t => (t, embed t.page_content)),
    persisted := false }

/-- Modelled from the spec: db.persist (src/ingest.py line 111) writes the
index to local disk under its persist directory. -/
def Chroma.persist {E : Type} (db : Chroma E) : Chroma E :=
  { db with persisted := true }

/-- Sequencing of the pool results: a loader exception propagates out of
the pool and aborts main, otherwise all documents are collected. -/
def collectDocs : List (Except String Document) → Except String (List Document)
  | [] => Except.ok []
  | Except.ok d :: rest => (collectDocs rest).map (fun l => d :: l)
  | Except.error e :: _ => Except.error e

/-- main of src/ingest.py lines 82-112: load the documents from the source
directory, split them into chunks, embed and index every chunk in a Chroma
store rooted at the persist directory, and persist the store. -/
def ingest_main {E : Type} (embed : String → E)
    (loadFn : LoaderSpec → String → List Document)
    (persist_directory source_directory : String)
    (files : List (List String)) : Except String (Chroma E) :=
  (collectDocs (load_documents loadFn source_directory files)).map
    (fun documents =>
      Chroma.persist
        (Chroma.from_documents embed (split_documents documents) persist_directory))

/-- C6: when the ingest main completes, the resulting store is persisted, is
rooted at PERSIST_DIRECTORY, and holds an embedding of every chunk split
from the loaded documents. -/
theorem ingest_main_persists_all_chunks :
    ∀ {E : Type} (embed : String → E)
      (loadFn : LoaderSpec → String → List Document)
      (pd sd : String) (files : List (List String)) (db : Chroma E),
      ingest_main embed loadFn pd sd files = Except.ok db →
      db.persisted = true ∧ db.persist_directory = pd ∧
      ∃ documents,
        collectDocs (load_documents loadFn sd files) = Except.ok documents ∧
        ∀ t ∈ split_documents documents, (t, embed t.page_content) ∈ db.entries := by
  intro E embed loadFn pd sd files db h
  rw [ingest_main] at h
  cases hc : collectDocs (load_documents loadFn sd files) with
  | error e => rw [hc] at h; simp [Except.map] at h
  | ok documents =>
    rw [hc] at h
    simp only [Except.map] at h
    cases h
    refine ⟨rfl, rfl, documents, rfl, ?_⟩
    intro t ht
    exact List.mem_map.mpr ⟨t, ht, rfl⟩

/-- The store that ingesting the one-file directory docs with the
demonstration loader and character-count embeddings produces. -/
def demoDb : Chroma Nat := ⟨"db", [(⟨"content", "docs/a.txt"⟩, 7)], true⟩

/-- C6 witness: the theorem applied to a concrete one-file ingest run whose
resulting store is computed explicitly. -/
theorem ingest_main_persists_all_chunks_witness :
    ingest_main String.length demoLoad "db" "docs" [["a.txt"]] = Except.ok demoDb ∧
    (demoDb.persisted = true ∧ demoDb.persist_directory = "db" ∧
      ∃ documents,
        collectDocs (load_documents demoLoad "docs" [["a.txt"]]) = Except.ok documents ∧
        ∀ t ∈ split_documents documents,
          (t, String.length t.page_content) ∈ demoDb.entries) :=
  ⟨rfl,
   ingest_main_persists_all_chunks String.length demoLoad "db" "docs" [["a.txt"]] demoDb rfl⟩

/-! Retrieval.  src/privateGPT.py line 143 reads TARGET_SOURCE_CHUNKS with
default 4, and line 158 passes it as the retriever's k. -/

/-- The TARGET_SOURCE_CHUNKS setting: the environment value when set,
otherwise 4. -/
def target_source_chunks (env : Option Nat) : Nat := env.getD 4

/-- Modelled from the spec: the vector store's built-in similarity search,
as used through as_retriever.  The entries are ranked by similarity to the
query, most similar first, and the first k are returned. -/
def similarity_search (score : Document → Nat) (k : Nat)
    (entries : List Document) : List Document :=
  (entries.mergeSort (fun a b => decide (score b ≤ score a))).take k

/-- The retriever built at src/privateGPT.py line 158: similarity search
with k = target_source_chunks. -/
def retrieve (sim : String → Document → Nat) (env : Option Nat)
    (entries : List Document) (query : String) : List Document :=
  similarity_search (sim query) (target_source_chunks env) entries

/-- C4: the retriever returns at most target_source_chunks passages (4 when
TARGET_SOURCE_CHUNKS is unset), and they are the most similar ones: the
remaining entries all score no higher than any retrieved one. -/
theorem retrieval_top_k :
    ∀ (sim : String → Document → Nat) (env : Option Nat)
      (entries : List Document) (query : String),
      (retrieve sim env entries query).length ≤ target_source_chunks env ∧
      target_source_chunks none = 4 ∧
      ∃ rest, (retrieve sim env entries query ++ rest).Perm entries ∧
        ∀ a ∈ retrieve sim env entries query, ∀ b ∈ rest,
          sim query b ≤ sim query a := by
  intro sim env entries query
  simp only [retrieve, similarity_search]
  refine ⟨List.length_take_le _ _, rfl,
    (entries.mergeSort (fun a b => decide (sim query b ≤ sim query a))).drop
      (target_source_chunks env), ?_, ?_⟩
  · rw [List.take_append_drop]
    exact List.mergeSort_perm entries _
  · have hsorted := @List.sorted_mergeSort Document
      (fun a b => decide (sim query b ≤ sim query a))
      (fun a b c hab hbc => by
        simp only [decide_eq_true_eq] at hab hbc
        simp only [decide_eq_true_eq]
        omega)
      (fun a b => by
        simp only [Bool.or_eq_true, decide_eq_true_eq]
        omega)
      entries
    rw [← List.take_append_drop (target_source_chunks env)
      (entries.mergeSort (fun a b => decide (sim query b ≤ sim query a)))] at hsorted
    obtain ⟨-, -, hcross⟩ := List.pairwise_append.mp hsorted
    intro a ha b hb
    have := hcross a ha b hb
    simpa using this

/-- A concrete similarity score used in the retrieval witness. -/
def demoSim : String → Document → Nat := fun _ d => d.page_content.length

/-- A concrete store content used in the retrieval witness. -/
def demoEntries : List Document := [⟨"alpha", "a.txt"⟩, ⟨"beta", "b.txt"⟩]

/-- C4 witness: the retrieval theorem applied to a concrete store and query
with TARGET_SOURCE_CHUNKS unset. -/
theorem retrieval_top_k_witness :
    (retrieve demoSim none demoEntries "q").length ≤ target_source_chunks none ∧
    target_source_chunks none = 4 :=
  ⟨(retrieval_top_k demoSim none demoEntries "q").1,
   (retrieval_top_k demoSim none demoEntries "q").2.1⟩

/-! The interactive answer loop of src/privateGPT.py lines 149-226. -/

/-- Command line arguments (src/privateGPT.py lines 248-267): two
store-true flags. -/
structure Args where
  hide_source : Bool
  mute_stream : Bool
deriving Repr, DecidableEq

/-- parse_arguments from src/privateGPT.py lines 248-267: a flag is set
exactly when its long or short form occurs among the arguments. -/
def parse_arguments (argv : List String) : Args :=
  { hide_source := argv.any (fun f => f == "--hide-source" || f == "-S"),
    mute_stream := argv.any (fun f => f == "--mute-stream" || f == "-M") }

/-- The dictionary the RetrievalQA chain returns for one query. -/
structure QAResult where
  result : String
  source_documents : List Document
deriving Repr, DecidableEq

/-- Modelled from the spec: the RetrievalQA chain built at
src/privateGPT.py lines 198-203.  The answer comes from the language model
over the retrieved context; the retrieved source passages are computed and
returned only when return_source_documents is set. -/
def qa_chain (answer : String → String) (sources : String → List Document)
    (return_source_documents : Bool) (query : String) : QAResult :=
  { result := answer query,
    source_documents := if return_source_documents then sources query else [] }

/-- The lines printed for one answered query (src/privateGPT.py lines
218-226): the question, the answer, then one path line and one content line
per source document unless hide_source is set. -/
def answer_block (args : Args) (query : String) (res : QAResult) : List String :=
  ["\n\n> Question:", query, "\n> Answer:", res.result] ++
    (if args.hide_source then [] else res.source_documents).flatMap
      (fun document => ["\n> " ++ document.source ++ ":", document.page_content])

/-- The per-query behaviour of main: the chain is constructed with
return_source_documents = not hide_source (line 202), queried, and the
answer block is printed. -/
def query_output (answer : String → String) (sources : String → List Document)
    (args : Args) (query : String) : List String :=
  answer_block args query (qa_chain answer sources (!args.hide_source) query)

/-- C5: the answer is always among the printed lines; with hide_source set
the output is exactly the four question and answer lines and the chain is
built so that it returns no source documents; without hide_source every
source document's path and content are printed. -/
theorem answer_and_sources_printed :
    ∀ (answer : String → String) (sources : String → List Document)
      (args : Args) (query : String),
      answer query ∈ query_output answer sources args query ∧
      (args.hide_source = true →
        query_output answer sources args query =
          ["\n\n> Question:", query, "\n> Answer:", answer query]) ∧
      (args.hide_source = false →
        ∀ d ∈ sources query,
          ("\n> " ++ d.source ++ ":") ∈ query_output answer sources args query ∧
          d.page_content ∈ query_output answer sources args query) ∧
      (args.hide_source = true →
        (qa_chain answer sources (!args.hide_source) query).source_documents = []) := by
  intro answer sources args query
  refine ⟨?_, ?_, ?_, ?_⟩
  · simp [query_output, answer_block, qa_chain]
  · intro h
    simp [query_output, answer_block, qa_chain, h]
  · intro h d hd
    constructor
    · simp only [query_output, answer_block, qa_chain, h, Bool.not_false, if_true,
        Bool.false_eq_true, if_false, List.mem_append, List.mem_flatMap]
      right
      exact ⟨d, hd, by simp⟩
    · simp only [query_output, answer_block, qa_chain, h, Bool.not_false, if_true,
        Bool.false_eq_true, if_false, List.mem_append, List.mem_flatMap]
      right
      exact ⟨d, hd, by simp⟩
  · intro h
    simp [qa_chain, h]

/-- A concrete language model answer used in witnesses. -/
def demoAnswer : String → String := fun _ => "the answer"

/-- A concrete retrieved-passages function used in witnesses. -/
def demoSources : String → List Document := fun _ => [⟨"passage", "doc.txt"⟩]

/-- C5 witness: the printing theorem applied with hide-source given (flag
parsed true, four lines only) and not given (flag parsed false, source path
and content printed). -/
theorem answer_and_sources_printed_witness :
    ((parse_arguments ["--hide-source"]).hide_source = true ∧
      query_output demoAnswer demoSources (parse_arguments ["--hide-source"]) "q" =
        ["\n\n> Question:", "q", "\n> Answer:", demoAnswer "q"]) ∧
    ((parse_arguments []).hide_source = false ∧
      ∀ d ∈ demoSources "q",
        ("\n> " ++ d.source ++ ":") ∈
          query_output demoAnswer demoSources (parse_arguments []) "q" ∧
        d.page_content ∈ query_output demoAnswer demoSources (parse_arguments []) "q") :=
  ⟨⟨by decide,
    (answer_and_sources_printed demoAnswer demoSources
      (parse_arguments ["--hide-source"]) "q").2.1 (by decide)⟩,
   ⟨by decide,
    (answer_and_sources_printed demoAnswer demoSources
      (parse_arguments []) "q").2.2.1 (by decide)⟩⟩

/-! The model backends of src/privateGPT.py lines 162-197. -/

/-- The four language-model backends main can bind to llm. -/
inductive ModelBackend
  | LlamaCpp
  | GPT4All
  | HuggingFace
  | OpenAI
deriving Repr, DecidableEq

/-- The match on MODEL_TYPE at src/privateGPT.py lines 162-197, as the
backend it binds: none when the default branch runs.  The Python structural
match on the four string patterns is written as an if-chain. -/
def parse_model_type (model_type : String) : Option ModelBackend :=
  if model_type = "LlamaCpp" then some ModelBackend.LlamaCpp
  else if model_type = "GPT4All" then some ModelBackend.GPT4All
  else if model_type = "HuggingFace" then some ModelBackend.HuggingFace
  else if model_type = "OpenAI" then some ModelBackend.OpenAI
  else none

/-- Whether answering with a backend contacts an external network service,
read off the branch of main that builds it (src/privateGPT.py lines
162-197): LlamaCpp and GPT4All load the model file at the local model_path,
HuggingFace builds a local pipeline with local_files_only set, and
ChatOpenAI sends every request to the hosted OpenAI API, authenticated with
OPENAI_API_KEY. -/
def requires_network : ModelBackend → Bool
  | ModelBackend.OpenAI => true
  | _ => false

/-- C7 (amended): every selectable backend other than OpenAI answers
queries without contacting an external network service. -/
theorem offline_backends :
    ∀ (mt : String) (b : ModelBackend), parse_model_type mt = some b →
      b ≠ ModelBackend.OpenAI → requires_network b = false := by
  intro mt b _ hb
  cases b with
  | LlamaCpp => rfl
  | GPT4All => rfl
  | HuggingFace => rfl
  | OpenAI => exact absurd rfl hb

/-- C7 counterexample: the OpenAI backend is selectable and does contact an
external network service. -/
theorem openai_backend_networked :
    parse_model_type "OpenAI" = some ModelBackend.OpenAI ∧
    requires_network ModelBackend.OpenAI = true := by
  decide

/-- C7 witness: the offline theorem applied to the GPT4All backend. -/
theorem offline_backends_witness :
    parse_model_type "GPT4All" = some ModelBackend.GPT4All ∧
    requires_network ModelBackend.GPT4All = false :=
  ⟨by decide, offline_backends "GPT4All" ModelBackend.GPT4All (by decide) (by decide)⟩

/-! The fall-through on an unsupported MODEL_TYPE, src/privateGPT.py lines
195-203. -/

/-- The four MODEL_TYPE values with a non-default branch. -/
def supported_model_types : List String :=
  ["LlamaCpp", "GPT4All", "HuggingFace", "OpenAI"]

/-- The failure main runs into after the default branch. -/
inductive RunError
  | nameErrorLlm
deriving Repr, DecidableEq

/-- The QA chain object built at src/privateGPT.py lines 198-203. -/
structure QAChain where
  backend : ModelBackend
  return_source_documents : Bool
deriving Repr, DecidableEq

/-- The match statement as main executes it (src/privateGPT.py lines
162-197): printed lines, and the binding of llm.  In the default case the
not-supported message is printed and the bare expression exit is evaluated
without being called, which has no effect, so execution continues with llm
left unbound (none). -/
def prepare_llm (model_type : String) : List String × Option ModelBackend :=
  match parse_model_type model_type with
  | some b => ([], some b)
  | none => (["Model " ++ model_type ++ " not supported!"], none)

/-- Building the RetrievalQA chain (src/privateGPT.py lines 198-203) reads
the name llm; when no branch bound it, Python raises NameError there. -/
def build_qa_chain (llm : Option ModelBackend) (hide_source : Bool) :
    Except RunError QAChain :=
  match llm with
  | some b => Except.ok { backend := b, return_source_documents := !hide_source }
  | none => Except.error RunError.nameErrorLlm

/-- The setup part of main (src/privateGPT.py lines 149-203): prepare the
LLM from MODEL_TYPE, then fall through to building the chain.  The first
component is the printed lines. -/
def main_setup (model_type : String) (hide_source : Bool) :
    List String × Except RunError QAChain :=
  ((prepare_llm model_type).1, build_qa_chain (prepare_llm model_type).2 hide_source)

lemma parse_model_type_none (mt : String) (h : mt ∉ supported_model_types) :
    parse_model_type mt = none := by
  simp only [supported_model_types, List.mem_cons, List.not_mem_nil, or_false] at h
  push_neg at h
  obtain ⟨h1, h2, h3, h4⟩ := h
  simp [parse_model_type, h1, h2, h3, h4]

/-- C8: on a MODEL_TYPE outside the four supported values, main prints the
not-supported message, does not terminate there, and reaches the chain
construction, which fails because llm was never bound. -/
theorem unsupported_model_type_falls_through :
    ∀ (mt : String) (hide_source : Bool), mt ∉ supported_model_types →
      main_setup mt hide_source =
        (["Model " ++ mt ++ " not supported!"], Except.error RunError.nameErrorLlm) := by
  intro mt hs h
  simp [main_setup, prepare_llm, parse_model_type_none mt h, build_qa_chain]

/-- C8 witness: the fall-through theorem applied to the unsupported value
Other. -/
theorem unsupported_model_type_falls_through_witness :
    "Other" ∉ supported_model_types ∧
    main_setup "Other" false =
      (["Model " ++ "Other" ++ " not supported!"], Except.error RunError.nameErrorLlm) :=
  ⟨by decide, unsupported_model_type_falls_through "Other" false (by decide)⟩

/-! The interactive loop, src/privateGPT.py lines 205-226. -/

/-- The loop over the entered queries: the literal input exit breaks out of
the loop before the chain is consulted; any other input is answered and
printed, and the loop continues. -/
def interact_loop (qa : String → QAResult) (args : Args) : List String → List String
  | [] => []
  | q :: rest =>
    if q = "exit" then []
    else answer_block args q (qa q) ++ interact_loop qa args rest

/-- C10: entering exactly exit ends the loop with nothing printed and no
chain involvement (the result does not depend on the chain); any other
input is forwarded to the chain and its answer block printed. -/
theorem interact_loop_exit_spec :
    ∀ (args : Args) (rest : List String),
      (∀ qa : String → QAResult, interact_loop qa args ("exit" :: rest) = []) ∧
      (∀ (qa : String → QAResult) (q : String) (rest2 : List String), q ≠ "exit" →
        interact_loop qa args (q :: rest2) =
          answer_block args q (qa q) ++ interact_loop qa args rest2) := by
  intro args rest
  constructor
  · intro qa
    simp [interact_loop]
  · intro qa q rest2 hq
    simp [interact_loop, hq]

/-- A concrete chain used in the loop witness. -/
def demoQA : String → QAResult := fun q => ⟨"answer to " ++ q, []⟩

/-- C10 witness: the loop theorem applied to a session that enters exit
first, and to a session that asks hello. -/
theorem interact_loop_exit_spec_witness :
    interact_loop demoQA (parse_arguments []) ["exit", "later"] = [] ∧
    ("hello" ≠ "exit" ∧
      interact_loop demoQA (parse_arguments []) ["hello"] =
        answer_block (parse_arguments []) "hello" (demoQA "hello") ++
          interact_loop demoQA (parse_arguments []) []) :=
  ⟨(interact_loop_exit_spec (parse_arguments []) ["later"]).1 demoQA,
   by decide,
   (interact_loop_exit_spec (parse_arguments []) []).2 demoQA "hello" [] (by decide)⟩

end PGPT
